import Mathlib

/-!
Verification of the DRIM sandbox core (manager / sandbox / interactive
terminal) against its specification.

The Python source is shallowly embedded: text and byte strings are modelled
as lists of characters (`Chars`), the container filesystem as an association
list, the Docker engine boundary (archive get/put, exec) as pure functions,
and the asynchronous pieces (the interactive session's socket reads, the
manager's pool operations) as explicit state-passing functions.  Each
definition mirrors one function of the source.
-/

/-- Character sequences: the model of Python `str`/`bytes` values.  UTF-8
encoding/decoding (used by the source with `errors="replace"`) is the
identity on sequences of Unicode scalar values, so both layers share this
one representation. -/
abbrev Chars := List Char

/-- Python `s.split(sep)` for a single-character separator: always returns at
least one (possibly empty) piece; no piece contains the separator. -/
def splitOnC (sep : Char) : Chars → List Chars
  | [] => [[]]
  | c :: rest =>
    if c = sep then [] :: splitOnC sep rest
    else
      match splitOnC sep rest with
      | [] => [[c]]
      | h :: t => (c :: h) :: t

/-- Python `sep.join(pieces)` for a single-character separator. -/
def joinC (sep : Char) : List Chars → Chars
  | [] => []
  | [t] => t
  | t :: ts => t ++ sep :: joinC sep ts

theorem splitOnC_ne_nil (sep : Char) (s : Chars) : splitOnC sep s ≠ [] := by
  induction s with
  | nil => simp [splitOnC]
  | cons c rest ih =>
    simp only [splitOnC]
    split
    · simp
    · cases h : splitOnC sep rest <;> simp

theorem joinC_cons (sep : Char) (t : Chars) (ts : List Chars) :
    joinC sep (t :: ts) = t ++ (if ts = [] then [] else sep :: joinC sep ts) := by
  cases ts <;> simp [joinC]

theorem splitOnC_no_sep (sep : Char) (s : Chars) :
    ∀ t ∈ splitOnC sep s, sep ∉ t := by
  induction s with
  | nil => intro t ht; simp [splitOnC] at ht; simp [ht]
  | cons c rest ih =>
    intro t ht
    by_cases hc : c = sep
    · simp only [splitOnC, if_pos hc] at ht
      rcases List.mem_cons.mp ht with h | h
      · simp [h]
      · exact ih t h
    · rcases hsp : splitOnC sep rest with _ | ⟨h0, t0⟩
      · exact absurd hsp (splitOnC_ne_nil sep rest)
      · simp only [splitOnC, if_neg hc, hsp] at ht
        rcases List.mem_cons.mp ht with h | h
        · subst h
          intro hmem
          rcases List.mem_cons.mp hmem with h | h
          · exact hc h.symm
          · exact ih h0 (by rw [hsp]; exact List.mem_cons_self _ _) h
        · exact ih t (by rw [hsp]; exact List.mem_cons_of_mem _ h)

theorem splitOnC_of_no_sep (sep : Char) (t : Chars) (h : sep ∉ t) :
    splitOnC sep t = [t] := by
  induction t with
  | nil => simp [splitOnC]
  | cons c rest ih =>
    simp at h
    simp only [splitOnC]
    rw [if_neg (by intro hh; exact h.1 hh.symm), ih h.2]

theorem splitOnC_append_sep (sep : Char) (t rest : Chars) (h : sep ∉ t) :
    splitOnC sep (t ++ sep :: rest) = t :: splitOnC sep rest := by
  induction t with
  | nil => simp [splitOnC]
  | cons c t0 ih =>
    simp at h
    simp only [List.cons_append, splitOnC, List.append_eq]
    rw [if_neg (by intro hh; exact h.1 hh.symm), ih h.2]

theorem splitOnC_joinC (sep : Char) (l : List Chars) (hne : l ≠ [])
    (h : ∀ t ∈ l, sep ∉ t) : splitOnC sep (joinC sep l) = l := by
  induction l with
  | nil => exact absurd rfl hne
  | cons t ts ih =>
    cases ts with
    | nil => simpa [joinC] using splitOnC_of_no_sep sep t (h t (by simp))
    | cons t2 ts2 =>
      rw [joinC_cons, if_neg (by simp)]
      rw [splitOnC_append_sep sep t _ (h t (by simp))]
      rw [ih (by simp) (by intro u hu; exact h u (by simp [hu]))]

/-!
Path model: the subset of Python `pathlib.PurePosixPath` used by
`DockerSandbox._resolve_container_path`, `read_file` and `write_file`
(src/app/sandbox/core/sandbox.py).  Constructing a `Path` collapses spurious
separators and single-dot components (but keeps `".."`); `str()` renders the
root plus the joined components, with `"."` for an empty relative path.
The POSIX corner case of a path starting with exactly two slashes is not
modelled (the source never produces one).
-/

/-- The components of `pathlib.Path(s).parts`, without the root entry:
split on `/`, dropping empty pieces and `"."` pieces. -/
def pathSegs (s : Chars) : List Chars :=
  (splitOnC '/' s).filter (fun t => decide (t ≠ [] ∧ t ≠ ['.']))

/-- Python `Path(s).is_absolute()`: the path starts with `/`. -/
def pathIsAbs (s : Chars) : Bool :=
  match s with
  | [] => false
  | c :: _ => decide (c = '/')

/-- Python `str(Path)` from a root flag and clean components. -/
def renderPath (ab : Bool) (segs : List Chars) : Chars :=
  if ab then '/' :: joinC '/' segs
  else
    match segs with
    | [] => ['.']
    | _ => joinC '/' segs

/-- Python `Path(s).name`: the last component, or `""` if there is none. -/
def pathName (s : Chars) : Chars :=
  ((pathSegs s).getLast?).getD []

/-- Python `str(Path(s).parent)`: drop the last component and render. -/
def pathParent (s : Chars) : Chars :=
  renderPath (pathIsAbs s) ((pathSegs s).dropLast)

/-- A clean path component: what `pathSegs` produces — nonempty, not `"."`,
and containing no separator. -/
def CleanSeg (t : Chars) : Prop := t ≠ [] ∧ t ≠ ['.'] ∧ '/' ∉ t

theorem pathSegs_clean (s : Chars) : ∀ t ∈ pathSegs s, CleanSeg t := by
  intro t ht
  have hmem := List.mem_of_mem_filter ht
  have hpred := List.of_mem_filter ht
  simp only [decide_eq_true_eq] at hpred
  exact ⟨hpred.1, hpred.2, splitOnC_no_sep '/' s t hmem⟩

theorem pathSegs_single (t : Chars) (h : CleanSeg t) : pathSegs t = [t] := by
  unfold pathSegs
  rw [splitOnC_of_no_sep '/' t h.2.2]
  simp [List.filter, h.1, h.2.1]

theorem pathSegs_renderPath (ab : Bool) (segs : List Chars)
    (h : ∀ t ∈ segs, CleanSeg t) :
    pathSegs (renderPath ab segs) = segs := by
  cases ab with
  | true =>
    show pathSegs ('/' :: joinC '/' segs) = segs
    cases segs with
    | nil =>
      simp [pathSegs, splitOnC, joinC]
    | cons t ts =>
      unfold pathSegs
      have hsp : splitOnC '/' ('/' :: joinC '/' (t :: ts)) =
          [] :: splitOnC '/' (joinC '/' (t :: ts)) := by
        simp [splitOnC]
      rw [hsp, splitOnC_joinC '/' (t :: ts) (by simp)
        (by intro u hu; exact (h u hu).2.2)]
      rw [List.filter_cons_of_neg (by decide)]
      exact List.filter_eq_self.mpr (by
        intro u hu
        simp only [decide_eq_true_eq]
        exact ⟨(h u hu).1, (h u hu).2.1⟩)
  | false =>
    cases segs with
    | nil =>
      simp [renderPath, pathSegs, splitOnC]
    | cons t ts =>
      show pathSegs (joinC '/' (t :: ts)) = t :: ts
      unfold pathSegs
      rw [splitOnC_joinC '/' (t :: ts) (by simp)
        (by intro u hu; exact (h u hu).2.2)]
      exact List.filter_eq_self.mpr (by
        intro u hu
        simp only [decide_eq_true_eq]
        exact ⟨(h u hu).1, (h u hu).2.1⟩)

theorem pathIsAbs_renderPath (ab : Bool) (segs : List Chars)
    (h : ∀ t ∈ segs, CleanSeg t) :
    pathIsAbs (renderPath ab segs) = ab := by
  cases ab with
  | true => rfl
  | false =>
    cases segs with
    | nil => rfl
    | cons t ts =>
      show pathIsAbs (joinC '/' (t :: ts)) = false
      rw [joinC_cons]
      rcases ht : t with _ | ⟨c, t0⟩
      · exact absurd ht (h t (by simp)).1
      · have hc : c ≠ '/' := by
          intro hcc
          exact (h t (by simp)).2.2 (by rw [ht, hcc]; simp)
        simp [pathIsAbs, hc]

/-- The container path at which the engine materialises an archive member
named `leaf` uploaded into directory `dir` (the effect of
`container.put_archive(dir, tar)` for a tar holding one member `leaf`). -/
def joinPath (dir leaf : Chars) : Chars :=
  renderPath (pathIsAbs dir) (pathSegs dir ++ pathSegs leaf)

theorem joinPath_parent_name (ab : Bool) (segs : List Chars)
    (h : ∀ t ∈ segs, CleanSeg t) :
    joinPath (pathParent (renderPath ab segs)) (pathName (renderPath ab segs))
      = renderPath ab segs := by
  have hsegs := pathSegs_renderPath ab segs h
  have habs := pathIsAbs_renderPath ab segs h
  unfold pathParent pathName joinPath
  rw [hsegs, habs]
  have hdl : ∀ t ∈ segs.dropLast, CleanSeg t :=
    fun t ht => h t ((List.dropLast_sublist segs).subset ht)
  rw [pathSegs_renderPath ab segs.dropLast hdl,
    pathIsAbs_renderPath ab segs.dropLast hdl]
  rcases eq_or_ne segs [] with hnil | hne
  · subst hnil
    simp [pathSegs, splitOnC]
  · rw [List.getLast?_eq_getLast segs hne]
    simp only [Option.getD_some]
    rw [pathSegs_single _ (h _ (List.getLast_mem hne))]
    rw [List.dropLast_append_getLast hne]

/-!
DockerSandbox file operations (src/app/sandbox/core/sandbox.py).  The
container filesystem is modelled as an association list from (normalised)
container paths to file contents; `container.get_archive` / `put_archive`
are the engine-boundary primitives reading/writing one entry of it.
-/

/-- The container filesystem: container path to file content. -/
abbrev ContainerFS := List (Chars × Chars)

/-- Engine boundary, download side: `container.get_archive(path)` returns an
archive holding the file at `path` (decoded by `_read_from_tar_stream`), or
`NotFound`. -/
def fsFind (fs : ContainerFS) (k : Chars) : Option Chars :=
  match fs.find? (fun kv => decide (kv.1 = k)) with
  | some kv => some kv.2
  | none => none

/-- Engine boundary, upload side: `container.put_archive(dir, tar)` for a
single-member tar (built by `_create_tar_stream_for_put_archive`) places the
member's content at `dir` joined with the member name. -/
def fsPut (fs : ContainerFS) (k v : Chars) : ContainerFS := (k, v) :: fs

/-- Errors of the sandbox file operations. -/
inductive FileOpError
  | traversal
  | fileNotFound
deriving DecidableEq

/-- `DockerSandbox._resolve_container_path`: reject any path whose parts
contain `".."`; return an absolute path unchanged (as rendered by
`str(Path(...))`); resolve a relative path against the configured working
directory. -/
def resolve_container_path (work_dir p : Chars) : Except Chars Chars :=
  if ['.', '.'] ∈ pathSegs p then
    Except.error p
  else if pathIsAbs p then
    Except.ok (renderPath true (pathSegs p))
  else
    Except.ok (renderPath (pathIsAbs work_dir) (pathSegs work_dir ++ pathSegs p))

/-- `DockerSandbox.read_file`: resolve the path (a `".."` component raises
before any engine call), fetch the single-file archive, decode its content. -/
def read_file (fs : ContainerFS) (work_dir p : Chars) : Except FileOpError Chars :=
  match resolve_container_path work_dir p with
  | Except.error _ => Except.error FileOpError.traversal
  | Except.ok r =>
    match fsFind fs r with
    | some content => Except.ok content
    | none => Except.error FileOpError.fileNotFound

/-- `DockerSandbox.write_file`: resolve the path (a `".."` component raises
before any engine call), ensure the parent directory exists (`mkdir -p`,
an engine call modelled as succeeding), then upload a one-member archive
named after the file's basename into the parent directory. -/
def write_file (fs : ContainerFS) (work_dir p content : Chars) :
    Except FileOpError ContainerFS :=
  match resolve_container_path work_dir p with
  | Except.error _ => Except.error FileOpError.traversal
  | Except.ok r =>
    let target_filename := pathName r
    let container_parent_dir := pathParent r
    Except.ok (fsPut fs (joinPath container_parent_dir target_filename) content)

/-- Whatever `resolve_container_path` accepts is a rendered clean path. -/
theorem resolve_clean (work_dir p r : Chars)
    (h : resolve_container_path work_dir p = Except.ok r) :
    ∃ ab segs, (∀ t ∈ segs, CleanSeg t) ∧ r = renderPath ab segs := by
  unfold resolve_container_path at h
  by_cases h1 : ['.', '.'] ∈ pathSegs p
  · rw [if_pos h1] at h; exact absurd h (by simp)
  · rw [if_neg h1] at h
    by_cases h2 : pathIsAbs p
    · rw [if_pos h2] at h
      exact ⟨true, pathSegs p, pathSegs_clean p, (Except.ok.inj h).symm⟩
    · rw [if_neg h2] at h
      refine ⟨pathIsAbs work_dir, pathSegs work_dir ++ pathSegs p, ?_,
        (Except.ok.inj h).symm⟩
      intro t ht
      rcases List.mem_append.mp ht with hm | hm
      · exact pathSegs_clean work_dir t hm
      · exact pathSegs_clean p t hm

deriving instance DecidableEq for Except

theorem fsFind_fsPut (fs : ContainerFS) (k v : Chars) :
    fsFind (fsPut fs k v) k = some v := by
  unfold fsFind fsPut
  simp [List.find?]

/-- C3: for every container path free of parent-directory components and
every content (multi-line and non-ASCII included), `write_file(p, c)`
followed by `read_file(p)` on the same sandbox returns exactly `c`:
the write succeeds, and reading the resulting filesystem yields `c`. -/
theorem write_read_roundtrip (fs : ContainerFS) (work_dir p content : Chars)
    (h : ['.', '.'] ∉ pathSegs p) :
    (∀ e, write_file fs work_dir p content ≠ Except.error e) ∧
    (∀ fs2, write_file fs work_dir p content = Except.ok fs2 →
      read_file fs2 work_dir p = Except.ok content) := by
  obtain ⟨r, hr⟩ : ∃ r, resolve_container_path work_dir p = Except.ok r := by
    unfold resolve_container_path
    rw [if_neg h]
    split
    · exact ⟨_, rfl⟩
    · exact ⟨_, rfl⟩
  obtain ⟨ab, segs, hclean, hrend⟩ := resolve_clean work_dir p r hr
  have hkey : joinPath (pathParent r) (pathName r) = r := by
    rw [hrend]; exact joinPath_parent_name ab segs hclean
  constructor
  · intro e
    simp [write_file, hr]
  · intro fs2 hw
    simp only [write_file, hr] at hw
    have hfs2 : fs2 = fsPut fs (joinPath (pathParent r) (pathName r)) content := by
      simpa using hw.symm
    subst hfs2
    simp [read_file, hr, hkey, fsFind_fsPut]

/-- Witness for the round-trip law at a concrete multi-line, non-ASCII
content and a relative path. -/
theorem write_read_roundtrip_witness :
    read_file [("/workspace/data/a.txt".data, "hé\nllo — ∀".data)]
      "/workspace".data "data/a.txt".data = Except.ok "hé\nllo — ∀".data := by
  exact (write_read_roundtrip [] "/workspace".data "data/a.txt".data
    "hé\nllo — ∀".data (by decide)).2 _ (by decide)

/-- C6: a path containing a parent-directory component is rejected by
resolution before any container access (`read_file`/`write_file` fail with
the traversal error, identically on every filesystem), and a relative path
without one is resolved against the configured working directory. -/
theorem resolve_traversal_and_workdir (fs fs2 : ContainerFS)
    (work_dir p content : Chars) :
    (['.', '.'] ∈ pathSegs p →
      resolve_container_path work_dir p = Except.error p ∧
      read_file fs work_dir p = Except.error FileOpError.traversal ∧
      read_file fs2 work_dir p = read_file fs work_dir p ∧
      write_file fs work_dir p content = Except.error FileOpError.traversal) ∧
    (['.', '.'] ∉ pathSegs p → pathIsAbs p = false →
      resolve_container_path work_dir p =
        Except.ok (renderPath (pathIsAbs work_dir)
          (pathSegs work_dir ++ pathSegs p))) := by
  constructor
  · intro hmem
    have hres : resolve_container_path work_dir p = Except.error p := by
      unfold resolve_container_path; rw [if_pos hmem]
    exact ⟨hres, by simp [read_file, hres], by simp [read_file, hres],
      by simp [write_file, hres]⟩
  · intro hmem habs
    unfold resolve_container_path
    rw [if_neg hmem]
    simp [habs]

/-- Witness: `"a/../b"` is rejected on any filesystem; `"data/f.txt"`
resolves under `"/workspace"`. -/
theorem resolve_traversal_and_workdir_witness :
    read_file [] "/workspace".data "a/../b".data =
      Except.error FileOpError.traversal ∧
    resolve_container_path "/workspace".data "data/f.txt".data =
      Except.ok "/workspace/data/f.txt".data := by
  constructor
  · exact ((resolve_traversal_and_workdir [] [] "/workspace".data "a/../b".data
      []).1 (by decide)).2.1
  · have h := (resolve_traversal_and_workdir [] [] "/workspace".data
      "data/f.txt".data []).2 (by decide) (by decide)
    rw [h]
    decide

/-- C9 as stated is false: an absolute path with no `".."` component is not
always accepted unchanged — `"/etc//passwd"` is normalised to
`"/etc/passwd"` by `str(Path(...))`. -/
theorem resolve_absolute_counterexample :
    resolve_container_path "/workspace".data "/etc//passwd".data =
      Except.ok "/etc/passwd".data ∧
    (Except.ok "/etc/passwd".data : Except Chars Chars) ≠
      Except.ok "/etc//passwd".data := by
  decide

/-- C9 amended: an absolute path with no `".."` component is accepted after
collapsing redundant separators and `"."` components — independently of the
working directory, so `read_file` (and the other file operations, which use
the same resolution) can target any absolute container path; a canonical
absolute path is returned verbatim. -/
theorem resolve_absolute_amended (work_dir work_dir2 p : Chars)
    (habs : pathIsAbs p = true) (h : ['.', '.'] ∉ pathSegs p) :
    resolve_container_path work_dir p =
      Except.ok (renderPath true (pathSegs p)) ∧
    resolve_container_path work_dir p = resolve_container_path work_dir2 p ∧
    (∀ fs content, fsFind fs (renderPath true (pathSegs p)) = some content →
      read_file fs work_dir p = Except.ok content) ∧
    (renderPath true (pathSegs p) = p →
      resolve_container_path work_dir p = Except.ok p) := by
  have hres : ∀ wd : Chars, resolve_container_path wd p =
      Except.ok (renderPath true (pathSegs p)) := by
    intro wd
    unfold resolve_container_path
    rw [if_neg h, if_pos habs]
  refine ⟨hres work_dir, by rw [hres work_dir, hres work_dir2], ?_, ?_⟩
  · intro fs content hfind
    simp [read_file, hres work_dir, hfind]
  · intro hcanon
    rw [hres work_dir, hcanon]

/-- Witness: `/etc/passwd` is canonical, resolves verbatim under any
working directory, and is readable when present. -/
theorem resolve_absolute_amended_witness :
    resolve_container_path "/workspace".data "/etc/passwd".data =
      Except.ok "/etc/passwd".data ∧
    read_file [("/etc/passwd".data, "root:x:0:0".data)] "/workspace".data
      "/etc/passwd".data = Except.ok "root:x:0:0".data := by
  have h := resolve_absolute_amended "/workspace".data "/home".data
    "/etc/passwd".data (by decide) (by decide)
  exact ⟨h.2.2.2 (by decide), h.2.2.1 _ _ (by decide)⟩

/-!
DockerSession (src/app/sandbox/core/terminal.py): string helpers mirroring
the Python methods used by `execute`, `_sanitize_command` and
`_read_until_prompt`, then the session protocol itself.
-/

/-- Python `s.strip()`. -/
def trimC (s : Chars) : Chars :=
  ((s.dropWhile Char.isWhitespace).reverse.dropWhile Char.isWhitespace).reverse

/-- Python `s.lstrip()`. -/
def lstripC (s : Chars) : Chars := s.dropWhile Char.isWhitespace

/-- Python `s.lower()`. -/
def toLowerC (s : Chars) : Chars := s.map Char.toLower

/-- Split at every whitespace character (keeping empty pieces). -/
def splitWsC : Chars → List Chars
  | [] => [[]]
  | c :: rest =>
    if c.isWhitespace then [] :: splitWsC rest
    else
      match splitWsC rest with
      | [] => [[c]]
      | h :: t => (c :: h) :: t

/-- Python `s.split()` with no argument: split on whitespace runs, dropping
empty pieces. -/
def wordsOf (s : Chars) : List Chars :=
  (splitWsC s).filter (fun t => !t.isEmpty)

/-- Python `s.isdigit()` (restricted to the ASCII digits the shell's
`echo $?` can produce). -/
def isDigitsC (s : Chars) : Bool := !s.isEmpty && s.all Char.isDigit

/-- Does `pat` occur in `s` starting at position `i`? -/
def occursAt (pat s : Chars) (i : Nat) : Bool := pat.isPrefixOf (s.drop i)

/-- The greatest position at which `pat` occurs in `s`, if any (the
occurrence found by Python `s.rpartition(pat)` / the test `pat in s`). -/
def lastHit (pat s : Chars) : Option Nat :=
  ((List.range (s.length + 1)).filter (fun i => occursAt pat s i)).getLast?

/-- Python `pat in s` (substring containment). -/
def containsSeq (s pat : Chars) : Bool := (lastHit pat s).isSome

/-- The first component of Python `s.rpartition(sep)`: everything before the
last occurrence of `sep`, or `""` when `sep` does not occur. -/
def rpartition_before (s sep : Chars) : Chars :=
  match lastHit sep s with
  | some i => s.take i
  | none => []

/-- The exit-code extraction step of `read_output_with_sentinel`: if the last
output line is (after stripping) a bare integer, it is recorded as the exit
code (returned first, used only for logging) and dropped from the output;
otherwise all lines are kept. -/
def strip_exit_code (output_lines : List Chars) : Chars × Chars :=
  match output_lines.getLast? with
  | some lastLine =>
    let potential_exit_code := trimC lastLine
    if isDigitsC potential_exit_code then
      (potential_exit_code, trimC (joinC '\n' output_lines.dropLast))
    else
      ([], trimC (joinC '\n' output_lines))
  | none => ([], [])

/-- The output processing of `read_output_with_sentinel` once reading has
stopped: split the buffer at the last occurrence of the sentinel, strip and
split into lines, drop a trailing bare-integer exit-code line, strip the
echoed command from the front, and strip the result. -/
def process_output (buffer sentinel command : Chars) : Chars :=
  let output_before_sentinel := rpartition_before buffer sentinel
  let output_lines := splitOnC '\n' (trimC output_before_sentinel)
  let processed := (strip_exit_code output_lines).2
  let processed2 :=
    if (trimC command).isPrefixOf processed then
      lstripC (processed.drop (trimC command).length)
    else processed
  trimC processed2

/-- The deny-list of `DockerSession._sanitize_command`. -/
def risky_patterns : List Chars :=
  [ "rm -rf /".data, "rm -rf /*".data, "mkfs".data, "dd if=/dev/zero".data,
    ":()\x7b:|:&\x7d;:".data, "chmod -R 777 /".data, "chown -R".data ]

/-- The normalisation `' '.join(command.lower().split())` applied before the
deny-list test. -/
def normalized_command_check (c : Chars) : Chars := joinC ' ' (wordsOf (toLowerC c))

/-- `DockerSession._sanitize_command`: strip the command; reject an empty
result; reject a command whose normalisation contains a deny-listed pattern
(first match, as the Python loop raises on it); otherwise return the
stripped command. -/
def sanitize_command (command : Chars) : Except Chars Chars :=
  let c := trimC command
  if c = [] then Except.error "Command cannot be empty.".data
  else
    match risky_patterns.find?
        (fun r => containsSeq (normalized_command_check c) r) with
    | some r =>
      Except.error ("Command contains potentially dangerous operation: ".data ++ r)
    | none => Except.ok c

/-- The bytes `execute` writes to the shell's stream
(`f"{sanitized_command}\necho $?\necho {sentinel}\n"`), or `none` when
sanitisation raises before `sendall` is reached. -/
def sent_bytes (command sentinel : Chars) : Option Chars :=
  match sanitize_command command with
  | Except.error _ => none
  | Except.ok sc =>
    some (sc ++ "\necho $?\necho ".data ++ sentinel ++ "\n".data)

/-!
The session protocol of `DockerSession.execute`.

The socket's read side is modelled as a tape of recv results: `some chunk`
for a chunk of data, `none` for an empty read (the peer closed the stream).
`fuel` counts how many recv results arrive before the `asyncio.wait_for`
deadline; when it runs out — or the tape is exhausted — the deadline fires,
the partially filled buffer of the cancelled coroutine is discarded, and the
unread tape remains in the stream.  Nothing in `execute`'s timeout handler
touches the session (its `try` block around an interrupt attempt contains
only `pass`), so the session fields and the remaining stream survive a
timeout unchanged.
-/

/-- One recv result: a data chunk, or an empty read (peer closed). -/
abbrev ReadTape := List (Option Chars)

/-- Outcome of the polling loop in `read_output_with_sentinel`: the sentinel
appeared in the accumulated buffer; an empty read broke the loop first; or
the deadline fired. -/
inductive ReadResult
  | found (buffer : Chars) (rest : ReadTape)
  | closedEarly (buffer : Chars) (rest : ReadTape)
  | timedOut (rest : ReadTape)
deriving DecidableEq

/-- The polling loop of `read_output_with_sentinel`: accumulate chunks and
stop as soon as the sentinel occurs in the buffer (`sentinel in
output_buffer`), break on an empty read, or lose the buffer when the
deadline fires. -/
def read_with_sentinel (sentinel : Chars) : Nat → ReadTape → Chars → ReadResult
  | 0, tape, _ => ReadResult.timedOut tape
  | _ + 1, [], _ => ReadResult.timedOut []
  | _ + 1, none :: rest, buf => ReadResult.closedEarly buf rest
  | fuel + 1, some c :: rest, buf =>
    let buf2 := buf ++ c
    if containsSeq buf2 sentinel then ReadResult.found buf2 rest
    else read_with_sentinel sentinel fuel rest buf2

/-- The prompt test of `_read_until_prompt`: `re.search(rb"\$ $", buffer)`
matches when the buffer ends with the prompt, optionally before one final
newline. -/
def prompt_found (buf : Chars) : Bool :=
  "$ ".data.isSuffixOf buf || "$ \n".data.isSuffixOf buf

/-- Outcome of `_read_until_prompt`: the prompt appeared; an empty read made
it raise `socket.error` (the stream is closed); or no further data ever
arrives and the un-timed loop blocks forever. -/
inductive PromptResult
  | found (rest : ReadTape)
  | closedErr
  | hangs
deriving DecidableEq

/-- `DockerSession._read_until_prompt`: poll until the prompt pattern
matches the buffer; an empty read raises. -/
def read_until_prompt : ReadTape → Chars → PromptResult
  | [], _ => PromptResult.hangs
  | none :: _, _ => PromptResult.closedErr
  | some c :: rest, buf =>
    let buf2 := buf ++ c
    if prompt_found buf2 then PromptResult.found rest
    else read_until_prompt rest buf2

/-- The session fields checked by `execute` before doing anything
(`if not self.socket or not self.exec_id`).  The class has no other state:
in particular it has no flag marking a session unusable after a timeout. -/
structure SessionState where
  hasSocket : Bool
  hasExecId : Bool
deriving DecidableEq

/-- How one `execute` call ends.  In the source, `rejected` and
`sessionError` both surface as `RuntimeError` (with distinguishing
messages) from the final `except` clause; `timeout` is the `TimeoutError`
raised from the `asyncio.TimeoutError` handler. -/
inductive ExecOutcome
  | ok (output : Chars)
  | notReady
  | rejected (msg : Chars)
  | timeout
  | sessionError
  | hangs
deriving DecidableEq

/-- `DockerSession.execute`: check the session fields, sanitise the command
(raising before anything is written), send the command plus exit-code and
sentinel echoes, read until the sentinel under the timeout, then read up to
the next prompt (outside the timeout) and return the processed output.
The pair returned is (outcome, remaining stream contents). -/
def DockerSession_execute (st : SessionState) (command sentinel : Chars)
    (fuel : Nat) (tape : ReadTape) : ExecOutcome × ReadTape :=
  if !(st.hasSocket && st.hasExecId) then (ExecOutcome.notReady, tape)
  else
    match sanitize_command command with
    | Except.error msg => (ExecOutcome.rejected msg, tape)
    | Except.ok _ =>
      match read_with_sentinel sentinel fuel tape [] with
      | ReadResult.timedOut rest => (ExecOutcome.timeout, rest)
      | ReadResult.closedEarly _ rest =>
        -- the buffer is processed, but the follow-up `_read_until_prompt`
        -- hits the closed stream at once and raises into the broad
        -- `except`, so the partial result never reaches the caller
        (ExecOutcome.sessionError, rest)
      | ReadResult.found buf rest =>
        match read_until_prompt rest [] with
        | PromptResult.found rest2 =>
          (ExecOutcome.ok (process_output buf sentinel command), rest2)
        | PromptResult.closedErr => (ExecOutcome.sessionError, rest)
        | PromptResult.hangs => (ExecOutcome.hangs, [])

/-- The stream contents in the C1 scenario: the timed-out `sleep` command
later finishes and the shell writes its output, exit code, the old sentinel
and a prompt; then come the echo, output, exit code and sentinel of the
next command, and a final prompt. -/
def tapeC1 : ReadTape :=
  [ some ("LATE\n0\nDRIM_CMD_END_aaaa0000\n$ ".data),
    some ("echo B\nB\n0\nDRIM_CMD_END_bbbb1111\n".data),
    some ("$ ".data) ]

/-- The buffer the second C1 call accumulates before its sentinel is found. -/
def bufC1 : Chars :=
  "LATE\n0\nDRIM_CMD_END_aaaa0000\n$ ".data ++
    "echo B\nB\n0\nDRIM_CMD_END_bbbb1111\n".data

/-- What the second C1 call returns: stray output of the timed-out command
included. -/
def outC1 : Chars := "LATE\n0\nDRIM_CMD_END_aaaa0000\n$ echo B\nB".data

/-- C1 as stated is false: `execute` times out on a live session, yet the
very next `execute` on the same, unrestarted session neither fails fast nor
requires a restart — it returns successfully, and its output contains the
stray text `LATE` left over from the timed-out command. -/
theorem execute_timeout_counterexample :
    (DockerSession_execute ⟨true, true⟩ "sleep 100".data
      "DRIM_CMD_END_aaaa0000".data 0 tapeC1).1 = ExecOutcome.timeout ∧
    DockerSession_execute ⟨true, true⟩ "echo B".data "DRIM_CMD_END_bbbb1111".data 2
      (DockerSession_execute ⟨true, true⟩ "sleep 100".data
        "DRIM_CMD_END_aaaa0000".data 0 tapeC1).2
      = (ExecOutcome.ok outC1, []) ∧
    containsSeq outC1 "LATE".data = true := by
  refine ⟨by decide, by decide, by decide⟩

/-- C1 amended: on timeout `execute` raises `CommandTimeout`, but the
session is not marked unusable — the session fields are untouched and only
the stream's unread contents remain, so a subsequent `execute` on the same
session proceeds normally and returns whatever the processing of the (still
shared) stream yields, which may include output left over from the
timed-out command. -/
theorem execute_timeout_amended (st : SessionState) (command sentinel : Chars)
    (fuel : Nat) (tape rest : ReadTape) (sc : Chars)
    (hs : st.hasSocket = true) (he : st.hasExecId = true)
    (hok : sanitize_command command = Except.ok sc)
    (ht : read_with_sentinel sentinel fuel tape [] = ReadResult.timedOut rest) :
    DockerSession_execute st command sentinel fuel tape =
      (ExecOutcome.timeout, rest) ∧
    (∀ command2 sentinel2 fuel2 buf2 rest2 rest3 sc2,
      sanitize_command command2 = Except.ok sc2 →
      read_with_sentinel sentinel2 fuel2 rest [] = ReadResult.found buf2 rest2 →
      read_until_prompt rest2 [] = PromptResult.found rest3 →
      DockerSession_execute st command2 sentinel2 fuel2 rest =
        (ExecOutcome.ok (process_output buf2 sentinel2 command2), rest3)) := by
  constructor
  · simp [DockerSession_execute, hs, he, hok, ht]
  · intro command2 sentinel2 fuel2 buf2 rest2 rest3 sc2 hok2 hf hp
    simp [DockerSession_execute, hs, he, hok2, hf, hp]

/-- Witness for the amended C1 at the concrete scenario. -/
theorem execute_timeout_amended_witness :
    DockerSession_execute ⟨true, true⟩ "sleep 100".data
      "DRIM_CMD_END_aaaa0000".data 0 tapeC1 = (ExecOutcome.timeout, tapeC1) ∧
    DockerSession_execute ⟨true, true⟩ "echo B".data
      "DRIM_CMD_END_bbbb1111".data 2 tapeC1 = (ExecOutcome.ok outC1, []) := by
  have h := execute_timeout_amended ⟨true, true⟩ "sleep 100".data
    "DRIM_CMD_END_aaaa0000".data 0 tapeC1 tapeC1 "sleep 100".data rfl rfl
    (by decide) (by decide)
  refine ⟨h.1, ?_⟩
  have h2 := h.2 "echo B".data "DRIM_CMD_END_bbbb1111".data 2 bufC1
    [some "$ ".data] [] "echo B".data (by decide) (by decide) (by decide)
  rw [h2]
  decide

/-- C2: if a read returns empty (peer closed) before the sentinel has
appeared in the accumulated buffer, `execute` fails with the hard session
error — the `RuntimeError` produced when the follow-up `_read_until_prompt`
hits the closed stream — which is a distinct outcome from `CommandTimeout`;
the partial buffer is not returned as a successful result. -/
theorem execute_closed_stream (st : SessionState) (command sentinel : Chars)
    (fuel : Nat) (tape rest : ReadTape) (buf sc : Chars)
    (hs : st.hasSocket = true) (he : st.hasExecId = true)
    (hok : sanitize_command command = Except.ok sc)
    (hc : read_with_sentinel sentinel fuel tape [] =
      ReadResult.closedEarly buf rest) :
    DockerSession_execute st command sentinel fuel tape =
      (ExecOutcome.sessionError, rest) := by
  simp [DockerSession_execute, hs, he, hok, hc]

/-- Witness: a partial chunk followed by an empty read yields the session
error. -/
theorem execute_closed_stream_witness :
    DockerSession_execute ⟨true, true⟩ "ls".data "DRIM_CMD_END_cccc2222".data 3
      [some "some out".data, none] = (ExecOutcome.sessionError, []) := by
  exact execute_closed_stream ⟨true, true⟩ "ls".data "DRIM_CMD_END_cccc2222".data
    3 [some "some out".data, none] [] "some out".data "ls".data rfl rfl
    (by decide) (by decide)

/-- C5 as stated is false: a command matching no deny-list pattern is not
always passed to the shell unmodified — surrounding whitespace is stripped
before sending — and a whitespace-only command matches no pattern yet is
rejected instead of being passed on. -/
theorem sanitize_counterexample :
    sent_bytes "  ls  ".data "SENT".data = some "ls\necho $?\necho SENT\n".data ∧
    some "ls\necho $?\necho SENT\n".data ≠
      some ("  ls  ".data ++ "\necho $?\necho ".data ++ "SENT".data ++ "\n".data) ∧
    risky_patterns.all
      (fun r => !containsSeq (normalized_command_check (trimC "   ".data)) r) = true ∧
    sanitize_command "   ".data = Except.error "Command cannot be empty.".data := by
  refine ⟨by decide, by decide, by decide, by decide⟩

/-- C5 amended: a command whose normalisation contains a deny-listed
destructive pattern fails fast with the rejection error and no bytes are
written to the shell's stream; an empty or whitespace-only command is
likewise rejected before anything is sent; every other command is passed to
the shell stripped of surrounding whitespace but otherwise unmodified. -/
theorem sanitize_amended :
    (∀ (command sentinel : Chars) (fuel : Nat) (tape : ReadTape)
        (st : SessionState),
      risky_patterns.any
        (fun r => containsSeq (normalized_command_check (trimC command)) r) = true →
      st.hasSocket = true → st.hasExecId = true →
      ∃ msg, sanitize_command command = Except.error msg ∧
        sent_bytes command sentinel = none ∧
        DockerSession_execute st command sentinel fuel tape =
          (ExecOutcome.rejected msg, tape)) ∧
    (∀ command sentinel : Chars, trimC command = [] →
      sanitize_command command = Except.error "Command cannot be empty.".data ∧
      sent_bytes command sentinel = none) ∧
    (∀ command sentinel : Chars, trimC command ≠ [] →
      risky_patterns.any
        (fun r => containsSeq (normalized_command_check (trimC command)) r) = false →
      sanitize_command command = Except.ok (trimC command) ∧
      sent_bytes command sentinel =
        some (trimC command ++ "\necho $?\necho ".data ++ sentinel ++ "\n".data)) := by
  refine ⟨?_, ?_, ?_⟩
  · intro command sentinel fuel tape st hany hs he
    have htne : trimC command ≠ [] := by
      intro h0
      rw [h0] at hany
      exact absurd hany (by decide)
    rcases hf : risky_patterns.find?
        (fun r => containsSeq (normalized_command_check (trimC command)) r) with _ | r
    · rcases List.any_eq_true.mp hany with ⟨r0, hmem, hpred⟩
      exact absurd hpred (List.find?_eq_none.mp hf r0 hmem)
    · have hsan : sanitize_command command =
          Except.error ("Command contains potentially dangerous operation: ".data ++ r) := by
        simp only [sanitize_command]
        rw [if_neg htne, hf]
      exact ⟨_, hsan, by simp [sent_bytes, hsan],
        by simp [DockerSession_execute, hs, he, hsan]⟩
  · intro command sentinel h0
    have hsan : sanitize_command command =
        Except.error "Command cannot be empty.".data := by
      simp only [sanitize_command]
      rw [if_pos h0]
    exact ⟨hsan, by simp [sent_bytes, hsan]⟩
  · intro command sentinel htne hany
    have hf : risky_patterns.find?
        (fun r => containsSeq (normalized_command_check (trimC command)) r) = none := by
      rw [List.find?_eq_none]
      intro r hmem
      exact (List.any_eq_false.mp hany) r hmem
    have hsan : sanitize_command command = Except.ok (trimC command) := by
      simp only [sanitize_command]
      rw [if_neg htne, hf]
    exact ⟨hsan, by simp [sent_bytes, hsan]⟩

/-- Witness for the amended C5: a destructive command is rejected with
nothing sent; a whitespace-only command is rejected; an ordinary command is
sent stripped. -/
theorem sanitize_amended_witness :
    sent_bytes "rm -rf /".data "S1".data = none ∧
    sanitize_command " ".data = Except.error "Command cannot be empty.".data ∧
    sent_bytes " ls ".data "S2".data =
      some (trimC " ls ".data ++ "\necho $?\necho ".data ++ "S2".data ++ "\n".data) := by
  obtain ⟨msg, h1, h2, h3⟩ := sanitize_amended.1 "rm -rf /".data "S1".data 0 []
    ⟨true, true⟩ (by decide) rfl rfl
  exact ⟨h2, (sanitize_amended.2.1 " ".data "S1".data (by decide)).1,
    (sanitize_amended.2.2 " ls ".data "S2".data (by decide) (by decide)).2⟩

/-- C10: once the sentinel is observed, `execute` returns the processed
stdout text whatever the exit code was — the outcome is `ok` with the
processed buffer, with no error path depending on the exit code — and the
processing drops a trailing bare-integer exit-code line from the returned
output (keeping it only for logging). -/
theorem execute_exit_code_stripped :
    (∀ (st : SessionState) (command sentinel : Chars) (fuel : Nat)
        (tape : ReadTape) (buf : Chars) (rest rest2 : ReadTape) (sc : Chars),
      st.hasSocket = true → st.hasExecId = true →
      sanitize_command command = Except.ok sc →
      read_with_sentinel sentinel fuel tape [] = ReadResult.found buf rest →
      read_until_prompt rest [] = PromptResult.found rest2 →
      DockerSession_execute st command sentinel fuel tape =
        (ExecOutcome.ok (process_output buf sentinel command), rest2)) ∧
    (∀ (lines : List Chars) (code : Chars), isDigitsC (trimC code) = true →
      strip_exit_code (lines ++ [code]) =
        (trimC code, trimC (joinC '\n' lines))) := by
  constructor
  · intro st command sentinel fuel tape buf rest rest2 sc hs he hok hf hp
    simp [DockerSession_execute, hs, he, hok, hf, hp]
  · intro lines code h
    simp [strip_exit_code, List.getLast?_concat, List.dropLast_concat, h]

/-- Witness: a command exiting with code 1 still returns (empty) output,
and a digit line is stripped. -/
theorem execute_exit_code_stripped_witness :
    DockerSession_execute ⟨true, true⟩ "false".data "DRIM_CMD_END_dddd3333".data 1
      [some "false\n1\nDRIM_CMD_END_dddd3333\n".data, some "$ ".data]
      = (ExecOutcome.ok [], []) ∧
    strip_exit_code ["out".data, "1".data] = ("1".data, "out".data) := by
  constructor
  · have h := execute_exit_code_stripped.1 ⟨true, true⟩ "false".data
      "DRIM_CMD_END_dddd3333".data 1
      [some "false\n1\nDRIM_CMD_END_dddd3333\n".data, some "$ ".data]
      "false\n1\nDRIM_CMD_END_dddd3333\n".data [some "$ ".data] []
      "false".data rfl rfl (by decide) (by decide) (by decide)
    rw [h]
    decide
  · have h := execute_exit_code_stripped.2 ["out".data] "1".data (by decide)
    have h2 : strip_exit_code (["out".data] ++ ["1".data]) =
        strip_exit_code ["out".data, "1".data] := rfl
    rw [h2] at h
    rw [h]
    decide

/-!
SandboxManager (src/app/sandbox/core/manager.py).  The manager's shared
bookkeeping is a record of four tables plus an id generator (standing in
for uuid4); all times come from the event loop's monotonic clock, modelled
as naturals.

Atomicity: `create_sandbox` holds `_global_lock` across its whole body, so
it is one atomic step; likewise the other operations below except the idle
sweep.  The sweep is NOT atomic: `_cleanup_idle_sandboxes` snapshots
`_active_operations` and `_last_used` under the pool lock and decides, and
`_safe_delete_sandbox` synchronously re-checks the active set, but its
second `async with self._global_lock:` is a suspension point whenever the
lock is held or queued for (asyncio's FIFO `Lock.acquire` suspends even
behind a mere waiter), and after resuming it pops the bookkeeping with no
further check; the sweep never takes the per-id lock.  The sweep for one
id is therefore modelled as two separate steps — the pure decision
`sweep_check`, evaluated at the snapshot state, and the unconditional
removal at the (possibly different) resume state — with arbitrary other
steps allowed in the window between them.
-/

/-- The manager's bookkeeping: `_sandboxes` (ids only — the sandbox objects
themselves carry no manager-relevant state), `_last_used`, `_locks`,
`_active_operations`, and the id generator. -/
structure MgrState where
  sandboxes : List Nat
  last_used : List (Nat × Nat)
  locks : List Nat
  active_operations : List Nat
  next_id : Nat
deriving DecidableEq

/-- The manager's initial state. -/
def initMgr : MgrState := ⟨[], [], [], [], 0⟩

/-- Result of `create_sandbox`: the new id, or one of the synchronous
failures (`PoolExhausted`, image resolution failure, provisioning failure). -/
inductive CreateResult
  | created (id : Nat)
  | poolExhausted
  | imageFailed
  | provisionFailed
deriving DecidableEq

/-- `SandboxManager.create_sandbox` (all under `_global_lock`): fail with
`PoolExhausted` at capacity; ensure the image (pull if needed — `imgOk`
is the engine's answer); register the new id's lock before inserting it
into the pool; provision the sandbox (`provOk`); on provisioning failure
roll the lock back and fail, otherwise insert into the pool and record
last-used. -/
def create_sandbox (max_sandboxes : Nat) (imgOk provOk : Bool) (now : Nat)
    (s : MgrState) : CreateResult × MgrState :=
  if max_sandboxes ≤ s.sandboxes.length then (CreateResult.poolExhausted, s)
  else if !imgOk then (CreateResult.imageFailed, s)
  else
    let id := s.next_id
    let s1 := { s with locks := id :: s.locks, next_id := s.next_id + 1 }
    if provOk then
      (CreateResult.created id,
        { s1 with sandboxes := id :: s1.sandboxes,
                  last_used := (id, now) :: s1.last_used })
    else
      (CreateResult.provisionFailed, { s1 with locks := s1.locks.erase id })

/-- `DockerSandbox.cleanup` as seen by the manager: an engine interaction
that either succeeds or raises. -/
def sandbox_cleanup (teardown_ok : Bool) : Except Chars Unit :=
  if teardown_ok then Except.ok () else Except.error "teardown failed".data

/-- `SandboxManager._safe_delete_sandbox_resources`: call the sandbox's
cleanup and swallow (log) any exception. -/
def safe_delete_sandbox_resources (teardown_ok : Bool) : Unit :=
  match sandbox_cleanup teardown_ok with
  | Except.ok _ => ()
  | Except.error _ => ()

/-- The bookkeeping removal inside `SandboxManager._safe_delete_sandbox`
(under `_global_lock`): pop the id from the pool, the last-used table and
the lock table. -/
def safe_delete_bookkeeping (s : MgrState) (id : Nat) : MgrState :=
  { s with sandboxes := s.sandboxes.erase id,
           last_used := s.last_used.filter (fun kv => decide (kv.1 ≠ id)),
           locks := s.locks.erase id }

/-- `SandboxManager._safe_delete_sandbox`: (after a bounded grace wait for
active operations, which in every case ends with the source "proceeding
with deletion attempt") remove the bookkeeping, then clean the sandbox's
resources with errors swallowed. -/
def safe_delete_sandbox (s : MgrState) (id : Nat) (teardown_ok : Bool) : MgrState :=
  let s2 := safe_delete_bookkeeping s id
  let _ := safe_delete_sandbox_resources teardown_ok
  s2

/-- `SandboxManager.delete_sandbox` (public): a no-op when the id is in
neither the pool nor the lock table; otherwise `_safe_delete_sandbox`, with
any exception caught and logged (the function never raises). -/
def delete_sandbox (s : MgrState) (id : Nat) (teardown_ok : Bool) : MgrState :=
  if id ∉ s.sandboxes ∧ id ∉ s.locks then s
  else safe_delete_sandbox s id teardown_ok

/-- Entering `SandboxManager.sandbox_operation` while holding the per-id
lock: create the lock on demand if missing, fail with `KeyError` when the
id is not in the pool, otherwise mark the operation active and refresh
last-used. -/
def begin_operation (s : MgrState) (id : Nat) (now : Nat) :
    Except Unit MgrState :=
  let s0 := if id ∈ s.locks then s else { s with locks := id :: s.locks }
  if id ∉ s0.sandboxes then Except.error ()
  else Except.ok { s0 with
    active_operations := id :: s0.active_operations,
    last_used := (id, now) :: s0.last_used.filter (fun kv => decide (kv.1 ≠ id)) }

/-- Leaving `sandbox_operation` (the `finally`): clear the active marker. -/
def end_operation (s : MgrState) (id : Nat) : MgrState :=
  { s with active_operations := s.active_operations.erase id }

/-- `self._last_used.get(sandbox_id, 0)`. -/
def lookup_last_used (s : MgrState) (id : Nat) : Nat :=
  match s.last_used.find? (fun kv => decide (kv.1 = id)) with
  | some kv => kv.2
  | none => 0

/-- The delete decision of one id's iteration of
`SandboxManager._cleanup_idle_sandboxes`, evaluated at the snapshot state:
skip an id no longer in the pool; otherwise read its active flag and
last-used time under the pool lock, and decide to delete exactly when it
has no active operation and its idle time exceeds `idle_timeout` (the
synchronous re-check at the top of `_safe_delete_sandbox` sees the same
active set, as nothing suspends between snapshot and re-check).  The
decision only reads; it mutates nothing. -/
def sweep_check (idle_timeout now : Nat) (s : MgrState) (id : Nat) : Bool :=
  if id ∉ s.sandboxes then false
  else
    let is_active := id ∈ s.active_operations
    let lu := lookup_last_used s id
    decide (¬ is_active ∧ idle_timeout < now - lu)

/-- One id's sweep iteration as actually interleaved: the decision is taken
at the snapshot state `s`; the sweep then suspends on the second
`_global_lock` acquire inside `_safe_delete_sandbox`, during which other
tasks may run, and resumes at state `s1` to remove the bookkeeping without
re-checking anything (for the uncontended, interference-free case,
`s1 = s`). -/
def sweep_iteration (idle_timeout now : Nat) (s s1 : MgrState) (id : Nat)
    (teardown_ok : Bool) : MgrState :=
  if sweep_check idle_timeout now s id then safe_delete_sandbox s1 id teardown_ok
  else s1

/-- The manager's atomic steps, as interleaved by the cooperative
scheduler.  The sweep contributes two kinds of step: the read-only decision
and the unconditional removal at resume time.  A schedule of steps
over-approximates the program's behaviours (every real interleaving of the
source is a schedule; a removal the program would not issue only makes the
safety bound below harder). -/
inductive MgrAct
  | createSb (imgOk provOk : Bool) (now : Nat)
  | deleteSb (id : Nat) (teardown_ok : Bool)
  | beginOp (id : Nat) (now : Nat)
  | endOp (id : Nat)
  | sweepCheck (id : Nat) (now : Nat)
  | sweepResume (id : Nat) (teardown_ok : Bool)
deriving DecidableEq

/-- One step of the manager under an arbitrary schedule (a failed
`begin_operation` raises `KeyError` and leaves the state unchanged; the
sweep's decision step reads but does not mutate). -/
def mgr_step (max_sandboxes idle_timeout : Nat) (s : MgrState) :
    MgrAct → MgrState
  | MgrAct.createSb imgOk provOk now => (create_sandbox max_sandboxes imgOk provOk now s).2
  | MgrAct.deleteSb id tok => delete_sandbox s id tok
  | MgrAct.beginOp id now =>
    match begin_operation s id now with
    | Except.ok s2 => s2
    | Except.error _ => s
  | MgrAct.endOp id => end_operation s id
  | MgrAct.sweepCheck _ _ => s
  | MgrAct.sweepResume id tok => safe_delete_sandbox s id tok

/-- Run a schedule of manager steps. -/
def mgr_run (max_sandboxes idle_timeout : Nat) (s : MgrState) :
    List MgrAct → MgrState
  | [] => s
  | a :: rest =>
    mgr_run max_sandboxes idle_timeout (mgr_step max_sandboxes idle_timeout s a) rest

theorem begin_operation_sandboxes (s : MgrState) (id now : Nat) (s2 : MgrState)
    (h : begin_operation s id now = Except.ok s2) :
    s2.sandboxes = s.sandboxes := by
  unfold begin_operation at h
  by_cases hmem : id ∈ s.locks
  · rw [if_pos hmem] at h
    dsimp only at h
    split at h
    · exact absurd h (by simp)
    · simpa using congrArg MgrState.sandboxes (Except.ok.inj h).symm
  · rw [if_neg hmem] at h
    dsimp only at h
    split at h
    · exact absurd h (by simp)
    · simpa using congrArg MgrState.sandboxes (Except.ok.inj h).symm

theorem mgr_step_length_bound (max_sandboxes idle_timeout : Nat) (s : MgrState)
    (a : MgrAct) (h : s.sandboxes.length ≤ max_sandboxes) :
    (mgr_step max_sandboxes idle_timeout s a).sandboxes.length ≤ max_sandboxes := by
  cases a with
  | createSb imgOk provOk now =>
    show (create_sandbox max_sandboxes imgOk provOk now s).2.sandboxes.length ≤ max_sandboxes
    unfold create_sandbox
    by_cases hcap : max_sandboxes ≤ s.sandboxes.length
    · rw [if_pos hcap]; exact h
    · rw [if_neg hcap]
      cases imgOk with
      | false => exact h
      | true =>
        cases provOk with
        | true => simp; omega
        | false => simpa using h
  | deleteSb id tok =>
    show (delete_sandbox s id tok).sandboxes.length ≤ max_sandboxes
    unfold delete_sandbox safe_delete_sandbox safe_delete_bookkeeping
    split
    · exact h
    · have := (s.sandboxes.erase_sublist id).length_le
      simp
      omega
  | beginOp id now =>
    show (match begin_operation s id now with
      | Except.ok s2 => s2
      | Except.error _ => s).sandboxes.length ≤ max_sandboxes
    rcases hb : begin_operation s id now with _ | s2
    · exact h
    · rw [begin_operation_sandboxes s id now s2 hb]; exact h
  | endOp id => exact h
  | sweepCheck id now => exact h
  | sweepResume id tok =>
    show (safe_delete_sandbox s id tok).sandboxes.length ≤ max_sandboxes
    unfold safe_delete_sandbox safe_delete_bookkeeping
    have := (s.sandboxes.erase_sublist id).length_le
    simp
    omega

/-- C4: the manager never tracks more than `max_sandboxes` sandboxes:
`create_sandbox` fails with `PoolExhausted` (leaving the state unchanged)
whenever the pool already holds `max_sandboxes` entries; after deleting one
tracked sandbox out of a full pool, a subsequent create succeeds; and the
pool-size bound is preserved by every manager operation, hence holds along
every schedule from the initial state. -/
theorem pool_capacity_bound (max_sandboxes idle_timeout : Nat) :
    (∀ (s : MgrState) (imgOk provOk : Bool) (now : Nat),
      s.sandboxes.length = max_sandboxes →
      create_sandbox max_sandboxes imgOk provOk now s =
        (CreateResult.poolExhausted, s)) ∧
    (∀ (s : MgrState) (id : Nat) (tok : Bool) (now : Nat),
      id ∈ s.sandboxes → s.sandboxes.length = max_sandboxes →
      (create_sandbox max_sandboxes true true now
        (delete_sandbox s id tok)).1 =
        CreateResult.created (delete_sandbox s id tok).next_id) ∧
    (∀ (s : MgrState) (a : MgrAct), s.sandboxes.length ≤ max_sandboxes →
      (mgr_step max_sandboxes idle_timeout s a).sandboxes.length ≤
        max_sandboxes) ∧
    (∀ acts : List MgrAct,
      (mgr_run max_sandboxes idle_timeout initMgr acts).sandboxes.length ≤
        max_sandboxes) := by
  refine ⟨?_, ?_, mgr_step_length_bound max_sandboxes idle_timeout, ?_⟩
  · intro s imgOk provOk now hlen
    unfold create_sandbox
    rw [if_pos (le_of_eq hlen.symm)]
  · intro s id tok now hmem hlen
    have hpos : 0 < s.sandboxes.length := List.length_pos.mpr (List.ne_nil_of_mem hmem)
    have hlen2 : (delete_sandbox s id tok).sandboxes.length = max_sandboxes - 1 := by
      unfold delete_sandbox
      rw [if_neg (by intro hcon; exact hcon.1 hmem)]
      show (safe_delete_sandbox s id tok).sandboxes.length = max_sandboxes - 1
      unfold safe_delete_sandbox safe_delete_bookkeeping
      simp only
      rw [List.length_erase_of_mem hmem, hlen]
    unfold create_sandbox
    rw [if_neg (by omega)]
    simp
  · intro acts
    have aux : ∀ (l : List MgrAct) (s : MgrState),
        s.sandboxes.length ≤ max_sandboxes →
        (mgr_run max_sandboxes idle_timeout s l).sandboxes.length ≤
          max_sandboxes := by
      intro l
      induction l with
      | nil => intro s hs; exact hs
      | cons a rest ih =>
        intro s hs
        exact ih _ (mgr_step_length_bound max_sandboxes idle_timeout s a hs)
    exact aux acts initMgr (by simp [initMgr])

/-- Witness for the capacity bound with `max_sandboxes = 1`: a full pool
rejects a create, and deleting the one sandbox lets the next create
succeed. -/
theorem pool_capacity_bound_witness :
    create_sandbox 1 true true 7 ⟨[0], [(0, 0)], [0], [], 1⟩ =
      (CreateResult.poolExhausted, ⟨[0], [(0, 0)], [0], [], 1⟩) ∧
    (create_sandbox 1 true true 7
      (delete_sandbox ⟨[0], [(0, 0)], [0], [], 1⟩ 0 true)).1 =
      CreateResult.created 1 := by
  constructor
  · exact (pool_capacity_bound 1 0).1 ⟨[0], [(0, 0)], [0], [], 1⟩ true true 7 rfl
  · have h := (pool_capacity_bound 1 0).2.1 ⟨[0], [(0, 0)], [0], [], 1⟩ 0 true 7
      (by decide) rfl
    rw [h]
    decide

/-- C7: `delete_sandbox` is idempotent — a second call with the same id is a
no-op — its resulting state does not depend on whether the underlying
teardown raises (teardown errors are swallowed inside
`_safe_delete_sandbox_resources`; the function always returns, never
raises), and every deletion of a tracked id removes the pool entry, the
last-used entry and the lock entry. -/
theorem delete_sandbox_props (s : MgrState) (id : Nat) (t1 t2 : Bool)
    (hs : s.sandboxes.Nodup) (hl : s.locks.Nodup) :
    delete_sandbox (delete_sandbox s id t1) id t2 = delete_sandbox s id t1 ∧
    delete_sandbox s id t1 = delete_sandbox s id t2 ∧
    (id ∈ s.sandboxes ∨ id ∈ s.locks →
      id ∉ (delete_sandbox s id t1).sandboxes ∧
      id ∉ (delete_sandbox s id t1).locks ∧
      (delete_sandbox s id t1).last_used.find?
        (fun kv => decide (kv.1 = id)) = none) := by
  by_cases hno : id ∉ s.sandboxes ∧ id ∉ s.locks
  · have hd : delete_sandbox s id t1 = s := by
      unfold delete_sandbox; rw [if_pos hno]
    have hd2 : delete_sandbox s id t2 = s := by
      unfold delete_sandbox; rw [if_pos hno]
    refine ⟨by rw [hd, hd2], by rw [hd, hd2], ?_⟩
    intro hmem
    rcases hmem with hm | hm
    · exact absurd hm hno.1
    · exact absurd hm hno.2
  · have hd : delete_sandbox s id t1 = safe_delete_bookkeeping s id := by
      unfold delete_sandbox safe_delete_sandbox
      rw [if_neg hno]
    have hd2 : delete_sandbox s id t2 = safe_delete_bookkeeping s id := by
      unfold delete_sandbox safe_delete_sandbox
      rw [if_neg hno]
    have hns : id ∉ (safe_delete_bookkeeping s id).sandboxes := by
      intro hmem
      unfold safe_delete_bookkeeping at hmem
      simp only at hmem
      exact ((hs.mem_erase_iff).mp hmem).1 rfl
    have hnl : id ∉ (safe_delete_bookkeeping s id).locks := by
      intro hmem
      unfold safe_delete_bookkeeping at hmem
      simp only at hmem
      exact ((hl.mem_erase_iff).mp hmem).1 rfl
    have hlu : (safe_delete_bookkeeping s id).last_used.find?
        (fun kv => decide (kv.1 = id)) = none := by
      rw [List.find?_eq_none]
      intro kv hkv
      unfold safe_delete_bookkeeping at hkv
      simp only at hkv
      have h2 := List.of_mem_filter hkv
      simp only [decide_eq_true_eq] at h2 ⊢
      exact h2
    refine ⟨?_, by rw [hd, hd2], ?_⟩
    · rw [hd]
      unfold delete_sandbox
      rw [if_pos ⟨hns, hnl⟩]
    · intro _
      rw [hd]
      exact ⟨hns, hnl, hlu⟩

/-- Witness: deleting the one tracked sandbox (with a failing teardown) is
final and a repeat delete is a no-op. -/
theorem delete_sandbox_props_witness :
    delete_sandbox (delete_sandbox ⟨[3], [(3, 5)], [3], [], 4⟩ 3 false) 3 true =
      delete_sandbox ⟨[3], [(3, 5)], [3], [], 4⟩ 3 false ∧
    3 ∉ (delete_sandbox ⟨[3], [(3, 5)], [3], [], 4⟩ 3 false).sandboxes := by
  have h := delete_sandbox_props ⟨[3], [(3, 5)], [3], [], 4⟩ 3 false true
    (by decide) (by decide)
  exact ⟨h.1, (h.2.2 (Or.inl (by decide))).1⟩

/-- C8 as stated is false: a concrete interleaving in which the sweep
snapshots sandbox 5 as inactive and idle-expired, commits to deleting it
and suspends on the contended pool lock inside `_safe_delete_sandbox`; an
operation then begins on sandbox 5 (its `begin_operation` succeeds and
marks it active); the resumed sweep still removes it — the sandbox is
deleted by the idle sweep while it has an active (in-flight) operation. -/
theorem sweep_deletes_active_counterexample :
    sweep_check 10 100 ⟨[5], [(5, 0)], [5], [], 6⟩ 5 = true ∧
    begin_operation ⟨[5], [(5, 0)], [5], [], 6⟩ 5 100 =
      Except.ok ⟨[5], [(5, 100)], [5], [5], 6⟩ ∧
    5 ∈ (⟨[5], [(5, 100)], [5], [5], 6⟩ : MgrState).active_operations ∧
    5 ∉ (sweep_iteration 10 100 ⟨[5], [(5, 0)], [5], [], 6⟩
      ⟨[5], [(5, 100)], [5], [5], 6⟩ 5 true).sandboxes := by
  refine ⟨by decide, by decide, by decide, by decide⟩

/-- C8 amended: the sweep's delete decision requires, at snapshot time,
that the sandbox is tracked, has no active operation and has been idle
longer than `idle_timeout` — a sandbox active (or not idle-expired) at the
snapshot is left alone by that iteration — but the removal runs after a
suspension on the pool lock with no re-check, so it is unconditional at
resume time: it removes the sandbox from the pool whatever the resume-time
state, leaving any operation begun in the window still marked active on a
now-deleted sandbox. -/
theorem sweep_window_amended (idle_timeout : Nat) :
    (∀ (s : MgrState) (id now : Nat),
      sweep_check idle_timeout now s id = true ↔
        (id ∈ s.sandboxes ∧ id ∉ s.active_operations ∧
          idle_timeout < now - lookup_last_used s id)) ∧
    (∀ (s s1 : MgrState) (id now : Nat) (tok : Bool),
      sweep_check idle_timeout now s id = false →
      sweep_iteration idle_timeout now s s1 id tok = s1) ∧
    (∀ (s s1 : MgrState) (id now : Nat) (tok : Bool),
      sweep_check idle_timeout now s id = true → s1.sandboxes.Nodup →
      id ∉ (sweep_iteration idle_timeout now s s1 id tok).sandboxes ∧
      (sweep_iteration idle_timeout now s s1 id tok).active_operations =
        s1.active_operations) := by
  refine ⟨?_, ?_, ?_⟩
  · intro s id now
    unfold sweep_check
    by_cases hmem : id ∈ s.sandboxes
    · rw [if_neg (fun hno => hno hmem)]
      dsimp only
      simp [hmem]
    · rw [if_pos hmem]
      simp [hmem]
  · intro s s1 id now tok hfalse
    unfold sweep_iteration
    rw [if_neg (by rw [hfalse]; exact Bool.false_ne_true)]
  · intro s s1 id now tok htrue hnodup
    unfold sweep_iteration
    rw [if_pos htrue]
    constructor
    · show id ∉ (safe_delete_bookkeeping s1 id).sandboxes
      intro hmem2
      unfold safe_delete_bookkeeping at hmem2
      simp only at hmem2
      exact ((hnodup.mem_erase_iff).mp hmem2).1 rfl
    · rfl

/-- Witness for the amended C8: a sandbox active at the snapshot is not
swept; one that passed the check is removed at resume even though an
operation became active in the window, its active marker surviving. -/
theorem sweep_window_amended_witness :
    sweep_iteration 10 100 ⟨[5], [(5, 0)], [5], [5], 6⟩
      ⟨[5], [(5, 0)], [5], [5], 6⟩ 5 true = ⟨[5], [(5, 0)], [5], [5], 6⟩ ∧
    (5 ∉ (sweep_iteration 10 100 ⟨[5], [(5, 0)], [5], [], 6⟩
        ⟨[5], [(5, 100)], [5], [5], 6⟩ 5 true).sandboxes ∧
      (sweep_iteration 10 100 ⟨[5], [(5, 0)], [5], [], 6⟩
        ⟨[5], [(5, 100)], [5], [5], 6⟩ 5 true).active_operations =
        (⟨[5], [(5, 100)], [5], [5], 6⟩ : MgrState).active_operations) := by
  exact ⟨(sweep_window_amended 10).2.1 ⟨[5], [(5, 0)], [5], [5], 6⟩
      ⟨[5], [(5, 0)], [5], [5], 6⟩ 5 100 true (by decide),
    (sweep_window_amended 10).2.2 ⟨[5], [(5, 0)], [5], [], 6⟩
      ⟨[5], [(5, 100)], [5], [5], 6⟩ 5 100 true (by decide) (by decide)⟩
